import Mathlib

/-!
Shallow embedding of the pulp-price dashboard (`src/pulp_dashboard.py`).

The core logic modelled here:
* the column resolver `find_matching_columns` (exact-name match first,
  keyword-substring fallback second, first match wins);
* the time-window filter `get_filtered_data` (anchor = max date in the data,
  cutoff = anchor - period days, inclusive `>=` comparison);
* the guard logic of `create_correlation_analysis` (needs at least two
  resolved, present columns) and `create_trend_analysis` (needs statsmodels
  and at least 24 monthly points after resampling);
* the upload handler's atomic replacement of session state.

Dates are modelled as day numbers since 1970-01-01 (`Nat`); calendar
conversions use the standard civil-calendar arithmetic so that monthly
resampling is faithful to pandas `resample('M')`.  Cell values are
`Option ℚ` (`none` models a missing/NaN cell).  External library calls
(pandas `corr`, statsmodels `seasonal_decompose`, plotly figures) are
abstracted as function parameters; the repository's own control flow around
them is modelled exactly.
-/

set_option maxRecDepth 100000

namespace PulpDashboard

/-- The four logical product keys of the `COLUMNS` configuration dict. -/
inductive Key where
  | suzano
  | westfraser
  | white_card
  | double_offset
deriving DecidableEq, Repr

/-- Iteration order of the `COLUMNS` dict (Python dicts iterate in insertion
order). -/
def keyOrder : List Key := [.suzano, .westfraser, .white_card, .double_offset]

/-- The canonical exact column name for each key (`COLUMNS` in the source). -/
def COLUMNS : Key → String
  | .suzano => "山东市场Suzano阔叶浆（金鱼）日度市场价（元/吨）"
  | .westfraser => "山东市场WestFraser化机浆（昆河）日度市场价（元/吨）"
  | .white_card => "山东市场白卡纸（250-400g）日度市场价（元/吨）"
  | .double_offset => "山东市场双胶纸（70g天阳）日度市场价（元/吨）"

/-- The fallback keyword lists for each key (`KEY_TERMS` in the source). -/
def KEY_TERMS : Key → List String
  | .suzano => ["Suzano", "阔叶浆", "金鱼"]
  | .westfraser => ["WestFraser", "化机浆", "昆河"]
  | .white_card => ["白卡纸", "250-400g"]
  | .double_offset => ["双胶纸", "70g", "天阳", "华夏太阳", "广东市场"]

/-- Python's `term in col` substring containment on strings, case-sensitive,
over unicode code points. -/
def strContains (col term : String) : Bool :=
  decide (List.IsInfix term.toList col.toList)

/-- Resolution of a single key against the table columns, exactly as the loop
body of `find_matching_columns` does it: `exact_match = [col for col in
df_columns if col_name == col]`, bind `exact_match[0]` when non-empty, else
bind the first column containing any keyword (`break` after the first hit),
else leave the key unbound. -/
def resolveKey (exact : Key → String) (terms : Key → List String)
    (df_columns : List String) (k : Key) : Option String :=
  match df_columns.filter (fun col => exact k == col) with
  | c :: _ => some c
  | [] => df_columns.find? (fun col => (terms k).any (fun term => strContains col term))

/-- The resolver generalised over the configuration and the dict iteration
order: the result dict is built by iterating over the config keys in `order`
and inserting each key's binding when one exists. -/
def find_matching_columns_gen (exact : Key → String) (terms : Key → List String)
    (order : List Key) (df_columns : List String) : List (Key × String) :=
  order.filterMap (fun k => (resolveKey exact terms df_columns k).map (fun c => (k, c)))

/-- `find_matching_columns` from the source: the generic resolver at the
repository's `COLUMNS` / `KEY_TERMS` configuration, iterating keys in the
dict's insertion order. -/
def find_matching_columns (df_columns : List String) : List (Key × String) :=
  find_matching_columns_gen COLUMNS KEY_TERMS keyOrder df_columns

/-- A table row: a date (day number since 1970-01-01) plus the remaining
cells, each a column name with an optional rational value (`none` = NaN). -/
structure Row where
  date : Nat
  cells : List (String × Option ℚ)
deriving DecidableEq, Repr

/-- The five named periods of the `TIME_PERIODS` dict. -/
inductive PeriodKey where
  | last_5_years
  | last_24_months
  | last_12_months
  | last_6_months
  | last_1_month
deriving DecidableEq, Repr

/-- Day counts of the `TIME_PERIODS` dict. -/
def TIME_PERIODS : PeriodKey → Nat
  | .last_5_years => 5 * 365
  | .last_24_months => 24 * 30
  | .last_12_months => 12 * 30
  | .last_6_months => 180
  | .last_1_month => 30

/-- `df[date_col].max()`: `none` on an empty table (pandas returns NaT). -/
def maxDate (df : List Row) : Option Nat :=
  match df.map Row.date with
  | [] => none
  | d :: ds => some (ds.foldl max d)

/-- `df[date_col].min()`: `none` on an empty table (pandas returns NaT). -/
def minDate (df : List Row) : Option Nat :=
  match df.map Row.date with
  | [] => none
  | d :: ds => some (ds.foldl min d)

/-- `get_filtered_data` from the source: `start_date = df[date_col].max() -
timedelta(days=days)` and `df[df[date_col] >= start_date].copy()`.  The
localized period label is resolved to its `TIME_PERIODS` key by reverse
dictionary lookup in the source; here the period key is passed directly.
On an empty table `max()` is NaT and every `>=` comparison against NaT is
False, so the result is empty. -/
def get_filtered_data (df : List Row) (period : PeriodKey) : List Row :=
  match maxDate df with
  | none => []
  | some m =>
    df.filter (fun r => decide ((m : Int) - (TIME_PERIODS period : Int) ≤ (r.date : Int)))

/-- Day number since 1970-01-01 of a Gregorian civil date (valid for years
from 1970 on; standard era/year-of-era arithmetic). -/
def daysFromCivil (y m d : Nat) : Nat :=
  let yAdj := if m ≤ 2 then y - 1 else y
  let era := yAdj / 400
  let yoe := yAdj % 400
  let mp := if 2 < m then m - 3 else m + 9
  let doy := (153 * mp + 2) / 5 + d - 1
  let doe := yoe * 365 + yoe / 4 - yoe / 100 + doy
  era * 146097 + doe - 719468

/-- The calendar month that a day number falls in, encoded as
`12 * year + (month - 1)`; the inverse civil-calendar computation. -/
def monthIndexOfDay (z : Nat) : Nat :=
  let zShift := z + 719468
  let era := zShift / 146097
  let doe := zShift % 146097
  let yoe := (doe - doe / 1460 + doe / 36524 - doe / 146096) / 365
  let y := yoe + era * 400
  let doy := doe - (365 * yoe + yoe / 4 - yoe / 100)
  let mp := (5 * doy + 2) / 153
  let m := if mp < 10 then mp + 3 else mp - 9
  let yAdj := if m ≤ 2 then y + 1 else y
  12 * yAdj + (m - 1)

/-- Value of column `col` in a row (`none` when the cell is missing/NaN; in
pandas selecting an absent column raises, but every caller in the source
selects a column known to be present). -/
def getCell (r : Row) (col : String) : Option ℚ :=
  match r.cells.lookup col with
  | some v => v
  | none => none

/-- `data.set_index(date_col)[analysis_col].resample('M').mean().dropna()`:
one point per calendar month containing at least one non-missing value of
`col`, carrying the mean of the month's non-missing values; months whose
values are all missing produce NaN means and are removed by `dropna`. -/
def monthlyPoints (data : List Row) (col : String) : List (Nat × ℚ) :=
  ((data.map (fun r => monthIndexOfDay r.date)).dedup).filterMap (fun mi =>
    let vals := (data.filter (fun r => monthIndexOfDay r.date == mi)).filterMap
      (fun r => getCell r col)
    match vals with
    | [] => none
    | v :: vs => some (mi, (v :: vs).sum / ((v :: vs).length : ℚ)))

/-- The local `corr_cols` of `create_correlation_analysis`: the resolved
columns present in the table, in the mapping's order, duplicates kept,
exactly like `[col for col in available_cols.values() if col in
data.columns]`. -/
def corr_cols (data_columns : List String) (available_cols : List (Key × String)) :
    List String :=
  (available_cols.map Prod.snd).filter (fun col => data_columns.contains col)

/-- `create_correlation_analysis` from the source: with fewer than two
resolved, present columns it returns the `(None, None)` signal.  The pandas
`data[corr_cols].corr()` computation and the plotly heatmap are external
collaborators, abstracted as the parameter `corr`; the function returns the
matrix handle paired with the columns it covers. -/
def create_correlation_analysis {M : Type} (corr : List String → M)
    (data_columns : List String) (available_cols : List (Key × String)) :
    Option (M × List String) :=
  if (corr_cols data_columns available_cols).length < 2 then none
  else some (corr (corr_cols data_columns available_cols), corr_cols data_columns available_cols)

/-- `create_trend_analysis` from the source.  `hasStatsmodels` is the
`HAS_STATSMODELS` capability flag; `seasonal_decompose` abstracts the
statsmodels call together with the figure/metric construction inside the
`try` block, returning `none` when that block raises (the `except` branch).
The monthly resampling and the `< 24` guard are the source's own logic.
(When `selected` is unbound the source would raise a `KeyError`; the
dashboard only  calls this with a product drawn from the bound keys, and the
theorems below assume a bound key.) -/
def create_trend_analysis {D : Type} (hasStatsmodels : Bool)
    (seasonal_decompose : List (Nat × ℚ) → Option D)
    (data : List Row) (selected : Key) (available_cols : List (Key × String)) :
    Option D :=
  if hasStatsmodels = false then none
  else
    match available_cols.lookup selected with
    | none => none
    | some analysis_col =>
      if (monthlyPoints data analysis_col).length < 24 then none
      else seasonal_decompose (monthlyPoints data analysis_col)

/-- The session state slots the upload handler writes
(`st.session_state.df_data`, `.available_cols`, `.date_col`). -/
structure SessionState where
  df_data : Option (List Row)
  available_cols : List (Key × String)
  date_col : Option String
deriving DecidableEq, Repr

/-- The body of the upload handler's `try` block: `pd.read_excel`, the
`df.columns[0]` access, `pd.to_datetime` over the date column, and the sort
by date.  `read_excel` (external) yields the column names and the raw rows,
each a raw first-column cell plus the remaining cells; `to_datetime`
(external) parses one raw date cell.  Any failing step aborts the whole
attempt with an error, exactly like an exception propagating to the
`except` clause. -/
def load_attempt {F C : Type}
    (read_excel : F → Except String (List String × List (C × List (String × Option ℚ))))
    (to_datetime : C → Except String Nat) (file : F) :
    Except String (List Row × List String) := do
  let (cols, rawRows) ← read_excel file
  match cols with
  | [] => Except.error "IndexError: df.columns[0] on an empty column index"
  | _ :: _ =>
    let rows ← rawRows.mapM (fun rc => do
      let d ← to_datetime rc.1
      pure (Row.mk d rc.2))
    pure (rows.mergeSort (fun a b => decide (a.date ≤ b.date)), cols)

/-- The upload handler (`if uploaded_file:` block): on success all three
session slots are replaced together; on any exception `st.error` is shown
and `st.stop()` ends the run with the session state untouched. -/
def process_upload {F C : Type}
    (read_excel : F → Except String (List String × List (C × List (String × Option ℚ))))
    (to_datetime : C → Except String Nat)
    (s : SessionState) (file : F) : SessionState :=
  match load_attempt read_excel to_datetime file with
  | Except.error _ => s
  | Except.ok (df, cols) =>
    { df_data := some df
      available_cols := find_matching_columns cols
      date_col := cols.head? }

/-- The example table of the spec's window scenario: one row per day from
2024-01-01 through 2024-03-31 (91 rows, ascending). -/
def df2024 : List Row :=
  (List.range 91).map (fun i => Row.mk (daysFromCivil 2024 1 1 + i) [])

/-- A small three-row table used to instantiate hypothesis-bearing theorems
at concrete inputs. -/
def dfW : List Row := [Row.mk 0 [], Row.mk 10 [], Row.mk 20 []]

section Lemmas

theorem init_le_foldl_max (l : List Nat) : ∀ a : Nat, a ≤ l.foldl max a := by
  induction l with
  | nil => intro a; exact le_refl a
  | cons b bs ih =>
    intro a
    rw [List.foldl_cons]
    exact le_trans (le_max_left a b) (ih (max a b))

theorem le_foldl_max (l : List Nat) (a x : Nat) (h : x = a ∨ x ∈ l) :
    x ≤ l.foldl max a := by
  induction l generalizing a with
  | nil =>
    rcases h with rfl | h
    · exact le_refl x
    · cases h
  | cons b bs ih =>
    rw [List.foldl_cons]
    rcases h with rfl | h
    · exact le_trans (le_max_left x b) (init_le_foldl_max bs (max x b))
    · rcases List.mem_cons.mp h with rfl | h
      · exact le_trans (le_max_right a x) (init_le_foldl_max bs (max a x))
      · exact ih (max a b) (Or.inr h)

theorem foldl_min_le_init (l : List Nat) : ∀ a : Nat, l.foldl min a ≤ a := by
  induction l with
  | nil => intro a; exact le_refl a
  | cons b bs ih =>
    intro a
    rw [List.foldl_cons]
    exact le_trans (ih (min a b)) (min_le_left a b)

theorem foldl_min_le (l : List Nat) (a x : Nat) (h : x = a ∨ x ∈ l) :
    l.foldl min a ≤ x := by
  induction l generalizing a with
  | nil =>
    rcases h with rfl | h
    · exact le_refl x
    · cases h
  | cons b bs ih =>
    rw [List.foldl_cons]
    rcases h with rfl | h
    · exact le_trans (foldl_min_le_init bs (min x b)) (min_le_left x b)
    · rcases List.mem_cons.mp h with rfl | h
      · exact le_trans (foldl_min_le_init bs (min a x)) (min_le_right a x)
      · exact ih (min a b) (Or.inr h)

/-- Every row's date is bounded by `maxDate`. -/
theorem date_le_maxDate {df : List Row} {m : Nat} (hm : maxDate df = some m)
    {r : Row} (hr : r ∈ df) : r.date ≤ m := by
  cases df with
  | nil => cases hr
  | cons r0 rest =>
    have hm' : (rest.map Row.date).foldl max r0.date = m := by
      simpa [maxDate] using hm
    rw [← hm']
    rcases List.mem_cons.mp hr with rfl | hr
    · exact le_foldl_max _ _ _ (Or.inl rfl)
    · exact le_foldl_max _ _ _ (Or.inr (List.mem_map_of_mem Row.date hr))

/-- Every row's date is bounded below by `minDate`. -/
theorem minDate_le_date {df : List Row} {mn : Nat} (hm : minDate df = some mn)
    {r : Row} (hr : r ∈ df) : mn ≤ r.date := by
  cases df with
  | nil => cases hr
  | cons r0 rest =>
    have hm' : (rest.map Row.date).foldl min r0.date = mn := by
      simpa [minDate] using hm
    rw [← hm']
    rcases List.mem_cons.mp hr with rfl | hr
    · exact foldl_min_le _ _ _ (Or.inl rfl)
    · exact foldl_min_le _ _ _ (Or.inr (List.mem_map_of_mem Row.date hr))

/-- Every key is in the dict iteration order. -/
theorem mem_keyOrder (k : Key) : k ∈ keyOrder := by
  cases k <;> simp [keyOrder]

/-- The first run of equal elements a filter by equality keeps starts with
the sought element itself. -/
theorem filter_beq_cons (s : String) (cols : List String) (h : s ∈ cols) :
    ∃ rest, cols.filter (fun col => s == col) = s :: rest := by
  induction cols with
  | nil => cases h
  | cons c cs ih =>
    by_cases hc : s = c
    · subst hc
      exact ⟨cs.filter (fun col => s == col), by simp [List.filter_cons]⟩
    · have hmem : s ∈ cs := by
        rcases List.mem_cons.mp h with rfl | hmem
        · exact absurd rfl hc
        · exact hmem
      obtain ⟨rest, hrest⟩ := ih hmem
      exact ⟨rest, by simp [List.filter_cons, hc, hrest]⟩

/-- When the exact name is present, `resolveKey` binds it. -/
theorem resolveKey_exact (exact : Key → String) (terms : Key → List String)
    (df_columns : List String) (k : Key) (h : exact k ∈ df_columns) :
    resolveKey exact terms df_columns k = some (exact k) := by
  obtain ⟨rest, hrest⟩ := filter_beq_cons (exact k) df_columns h
  simp [resolveKey, hrest]

/-- When the exact name is absent, `resolveKey` is the first-keyword-match
scan over the columns in their original order. -/
theorem resolveKey_keyword (exact : Key → String) (terms : Key → List String)
    (df_columns : List String) (k : Key) (h : exact k ∉ df_columns) :
    resolveKey exact terms df_columns k
      = df_columns.find? (fun col => (terms k).any (fun term => strContains col term)) := by
  have hnil : df_columns.filter (fun col => exact k == col) = [] := by
    rw [List.filter_eq_nil_iff]
    intro c hc hbeq
    exact h (by simpa [beq_iff_eq] using (show exact k = c by simpa using hbeq) ▸ hc)
  simp [resolveKey, hnil]

/-- Building the mapping skips a key that resolves to nothing. -/
theorem fmc_gen_cons_none (exact : Key → String) (terms : Key → List String)
    (df_columns : List String) (a : Key) (os : List Key)
    (h : resolveKey exact terms df_columns a = none) :
    find_matching_columns_gen exact terms (a :: os) df_columns
      = find_matching_columns_gen exact terms os df_columns := by
  simp [find_matching_columns_gen, List.filterMap_cons, h]

/-- Building the mapping inserts a key's binding when it resolves. -/
theorem fmc_gen_cons_some (exact : Key → String) (terms : Key → List String)
    (df_columns : List String) (a : Key) (os : List Key) (c : String)
    (h : resolveKey exact terms df_columns a = some c) :
    find_matching_columns_gen exact terms (a :: os) df_columns
      = (a, c) :: find_matching_columns_gen exact terms os df_columns := by
  simp [find_matching_columns_gen, List.filterMap_cons, h]

/-- Looking a key up in the built mapping gives that key's own resolution,
independently of the other keys and of the iteration order. -/
theorem lookup_find_matching_columns_gen (exact : Key → String) (terms : Key → List String)
    (df_columns : List String) (order : List Key) (k : Key) :
    (find_matching_columns_gen exact terms order df_columns).lookup k
      = if k ∈ order then resolveKey exact terms df_columns k else none := by
  induction order with
  | nil => simp [find_matching_columns_gen]
  | cons a os ih =>
    by_cases hk : k = a
    · subst hk
      cases hres : resolveKey exact terms df_columns k with
      | none =>
        rw [fmc_gen_cons_none exact terms df_columns k os hres, ih]
        by_cases hmem : k ∈ os <;> simp [hmem, hres]
      | some c =>
        rw [fmc_gen_cons_some exact terms df_columns k os c hres]
        simp [List.lookup, hres]
    · cases hres : resolveKey exact terms df_columns a with
      | none =>
        rw [fmc_gen_cons_none exact terms df_columns a os hres, ih]
        simp [List.mem_cons, hk]
      | some c =>
        rw [fmc_gen_cons_some exact terms df_columns a os c hres]
        have hbeq : (k == a) = false := by simp [hk]
        simp [List.lookup, hbeq, ih, List.mem_cons, hk]

end Lemmas

/-- C1: for every non-empty table and every period, the time-window filter
returns exactly the rows whose date lies in the inclusive interval
`[max(date) - P.days, max(date)]`, in the input order (the result is the
order-preserving `filter` of the input by that interval predicate). -/
theorem filter_returns_inclusive_window (df : List Row) (p : PeriodKey) (m : Nat)
    (hm : maxDate df = some m) :
    get_filtered_data df p
      = df.filter (fun r =>
          decide ((m : Int) - (TIME_PERIODS p : Int) ≤ (r.date : Int)
            ∧ (r.date : Int) ≤ (m : Int))) := by
  have hfil : get_filtered_data df p
      = df.filter (fun r => decide ((m : Int) - (TIME_PERIODS p : Int) ≤ (r.date : Int))) := by
    simp [get_filtered_data, hm]
  rw [hfil]
  apply List.filter_congr
  intro r hr
  have h1 : ((r.date : Nat) : Int) ≤ (m : Int) := by
    exact_mod_cast date_le_maxDate hm hr
  simp only [decide_eq_decide]
  exact ⟨fun h => ⟨h, h1⟩, fun h => h.1⟩

theorem filter_returns_inclusive_window_witness :
    maxDate dfW = some 20
    ∧ get_filtered_data dfW PeriodKey.last_1_month
      = dfW.filter (fun r =>
          decide (((20 : Nat) : Int) - (TIME_PERIODS PeriodKey.last_1_month : Int) ≤ (r.date : Int)
            ∧ (r.date : Int) ≤ ((20 : Nat) : Int))) :=
  ⟨by decide, filter_returns_inclusive_window dfW PeriodKey.last_1_month 20 (by decide)⟩

/-- C2: whenever some table column string-equals a key's canonical exact
name, the resolver binds that key to the exact name, and the binding is
independent of the key's keyword list (no keyword match is considered),
whatever the column order. -/
theorem exact_name_precedence (exact : Key → String) (terms terms' : Key → List String)
    (df_columns : List String) (k : Key) (h : exact k ∈ df_columns) :
    (find_matching_columns_gen exact terms keyOrder df_columns).lookup k = some (exact k)
    ∧ (find_matching_columns_gen exact terms keyOrder df_columns).lookup k
      = (find_matching_columns_gen exact terms' keyOrder df_columns).lookup k := by
  have hk := mem_keyOrder k
  rw [lookup_find_matching_columns_gen exact terms df_columns keyOrder k,
    lookup_find_matching_columns_gen exact terms' df_columns keyOrder k,
    if_pos hk, if_pos hk, resolveKey_exact exact terms df_columns k h,
    resolveKey_exact exact terms' df_columns k h]
  exact ⟨rfl, rfl⟩

theorem exact_name_precedence_witness :
    COLUMNS Key.suzano ∈ ["Date", COLUMNS Key.suzano]
    ∧ ((find_matching_columns_gen COLUMNS KEY_TERMS keyOrder
          ["Date", COLUMNS Key.suzano]).lookup Key.suzano = some (COLUMNS Key.suzano)
      ∧ (find_matching_columns_gen COLUMNS KEY_TERMS keyOrder
          ["Date", COLUMNS Key.suzano]).lookup Key.suzano
        = (find_matching_columns_gen COLUMNS (fun _ => []) keyOrder
          ["Date", COLUMNS Key.suzano]).lookup Key.suzano) :=
  ⟨by decide, exact_name_precedence COLUMNS KEY_TERMS (fun _ => [])
    ["Date", COLUMNS Key.suzano] Key.suzano (by decide)⟩

/-- The exact name of the spec's fallback example: every key maps to "X". -/
def exactX : Key → String := fun _ => "X"

/-- The keyword list of the spec's fallback example. -/
def termsWhite : Key → List String := fun _ => ["白卡纸"]

/-- C3: when a key's canonical exact name is absent from the table columns,
the resolver binds the key to the first column (in original column order)
containing any of the key's keywords as a case-sensitive substring, and
leaves the key absent (no error) when no column contains any keyword:
its binding is exactly `find?` of the keyword predicate. -/
theorem keyword_fallback_first_match (exact : Key → String) (terms : Key → List String)
    (df_columns : List String) (k : Key) (h : exact k ∉ df_columns) :
    (find_matching_columns_gen exact terms keyOrder df_columns).lookup k
      = df_columns.find? (fun col => (terms k).any (fun term => strContains col term)) := by
  rw [lookup_find_matching_columns_gen exact terms df_columns keyOrder k,
    if_pos (mem_keyOrder k), resolveKey_keyword exact terms df_columns k h]

theorem keyword_fallback_first_match_witness :
    exactX Key.white_card ∉ ["Date", "白卡纸ABC"]
    ∧ (find_matching_columns_gen exactX termsWhite keyOrder
          ["Date", "白卡纸ABC"]).lookup Key.white_card
      = ["Date", "白卡纸ABC"].find?
          (fun col => (termsWhite Key.white_card).any (fun term => strContains col term))
    ∧ (find_matching_columns_gen exactX termsWhite keyOrder
          ["Date", "白卡纸ABC"]).lookup Key.white_card = some "白卡纸ABC" :=
  ⟨by decide,
    keyword_fallback_first_match exactX termsWhite ["Date", "白卡纸ABC"] Key.white_card
      (by decide),
    by decide⟩

/-- C4: column resolution is deterministic and independent of the dict
iteration order: for a key listed in both orders the built mappings agree,
and the repository resolver's binding of each key is exactly that key's own
resolution against the column sequence (ties broken by the table's column
order inside `resolveKey`'s first-match scan). -/
theorem resolve_deterministic_order_independent (df_columns : List String)
    (order₁ order₂ : List Key) (k : Key) (h₁ : k ∈ order₁) (h₂ : k ∈ order₂) :
    (find_matching_columns_gen COLUMNS KEY_TERMS order₁ df_columns).lookup k
      = (find_matching_columns_gen COLUMNS KEY_TERMS order₂ df_columns).lookup k
    ∧ (find_matching_columns df_columns).lookup k
      = resolveKey COLUMNS KEY_TERMS df_columns k := by
  constructor
  · rw [lookup_find_matching_columns_gen COLUMNS KEY_TERMS df_columns order₁ k,
      lookup_find_matching_columns_gen COLUMNS KEY_TERMS df_columns order₂ k,
      if_pos h₁, if_pos h₂]
  · rw [find_matching_columns,
      lookup_find_matching_columns_gen COLUMNS KEY_TERMS df_columns keyOrder k,
      if_pos (mem_keyOrder k)]

theorem resolve_deterministic_order_independent_witness :
    Key.white_card ∈ keyOrder
    ∧ Key.white_card ∈ keyOrder.reverse
    ∧ ((find_matching_columns_gen COLUMNS KEY_TERMS keyOrder
          ["Date", "白卡纸ABC"]).lookup Key.white_card
        = (find_matching_columns_gen COLUMNS KEY_TERMS keyOrder.reverse
          ["Date", "白卡纸ABC"]).lookup Key.white_card
      ∧ (find_matching_columns ["Date", "白卡纸ABC"]).lookup Key.white_card
        = resolveKey COLUMNS KEY_TERMS ["Date", "白卡纸ABC"] Key.white_card) :=
  ⟨by decide, by decide,
    resolve_deterministic_order_independent ["Date", "白卡纸ABC"] keyOrder keyOrder.reverse
      Key.white_card (by decide) (by decide)⟩

/-- C5 counterexample: on the daily table 2024-01-01..2024-03-31, the
"last 1 month" (30-day) filter does NOT return the rows from 2024-03-02
onward as the claim states: the cutoff `anchor - 30 days = 2024-03-01` is
kept by the inclusive `>=` comparison. -/
theorem window_example_counterexample :
    get_filtered_data df2024 PeriodKey.last_1_month
      ≠ df2024.filter (fun r => decide (daysFromCivil 2024 3 2 ≤ r.date)) := by
  decide

/-- C5 amended: on the daily table 2024-01-01..2024-03-31, the "last 1
month" (30-day) filter returns exactly the rows from 2024-03-01 onward,
i.e. the last 31 calendar days ending 2024-03-31. -/
theorem window_example_amended :
    get_filtered_data df2024 PeriodKey.last_1_month
      = df2024.filter (fun r => decide (daysFromCivil 2024 3 1 ≤ r.date))
    ∧ (get_filtered_data df2024 PeriodKey.last_1_month).length = 31 := by
  exact ⟨by decide, by decide⟩

/-- C6: filtering the empty table yields the empty table (no error), and
filtering a non-empty table whose full date span is shorter than the
period's day count yields the full table. -/
theorem filter_empty_and_short_span (p : PeriodKey) (df : List Row) (m mn : Nat)
    (hmax : maxDate df = some m) (hmin : minDate df = some mn)
    (hspan : (m : Int) - (mn : Int) < (TIME_PERIODS p : Int)) :
    get_filtered_data [] p = [] ∧ get_filtered_data df p = df := by
  refine ⟨rfl, ?_⟩
  have hfil : get_filtered_data df p
      = df.filter (fun r => decide ((m : Int) - (TIME_PERIODS p : Int) ≤ (r.date : Int))) := by
    simp [get_filtered_data, hmax]
  rw [hfil]
  apply List.filter_eq_self.mpr
  intro r hr
  have h1 : ((mn : Nat) : Int) ≤ ((r.date : Nat) : Int) := by
    exact_mod_cast minDate_le_date hmin hr
  simp only [decide_eq_true_eq]
  omega

theorem filter_empty_and_short_span_witness :
    maxDate dfW = some 20
    ∧ minDate dfW = some 0
    ∧ (((20 : Nat) : Int) - ((0 : Nat) : Int) < (TIME_PERIODS PeriodKey.last_1_month : Int))
    ∧ (get_filtered_data [] PeriodKey.last_1_month = []
      ∧ get_filtered_data dfW PeriodKey.last_1_month = dfW) :=
  ⟨by decide, by decide, by decide,
    filter_empty_and_short_span PeriodKey.last_1_month dfW 20 0 (by decide) (by decide)
      (by decide)⟩

/-- C7: the correlation analysis produces a matrix exactly when at least two
resolved columns are present in the table; with fewer it returns the
`(None, None)` "insufficient columns" signal (in particular a single
resolvable column yields the signal, not a 1-by-1 matrix error). -/
theorem correlation_needs_two_columns {M : Type} (corr : List String → M)
    (data_columns : List String) (available_cols : List (Key × String)) :
    (create_correlation_analysis corr data_columns available_cols).isSome
      = decide (2 ≤ (corr_cols data_columns available_cols).length) := by
  unfold create_correlation_analysis
  by_cases h : (corr_cols data_columns available_cols).length < 2
  · rw [if_pos h]
    simp only [Option.isSome_none]
    symm
    simp only [decide_eq_false_iff_not]
    omega
  · rw [if_neg h]
    simp only [Option.isSome_some]
    symm
    simp only [decide_eq_true_eq]
    omega

/-- C8: given a bound product column, seasonal decomposition is attempted
exactly when the monthly-resampled series has at least 24 points: below the
threshold the result is the skip signal and the external decomposition
routine is never invoked (the result does not depend on it); at or above
the threshold, with statsmodels present, the result is exactly the
routine's output on the monthly series. -/
theorem seasonal_decompose_gate {D : Type} (hs : Bool)
    (sd sd' : List (Nat × ℚ) → Option D)
    (data : List Row) (selected : Key) (available_cols : List (Key × String))
    (analysis_col : String)
    (hcol : available_cols.lookup selected = some analysis_col) :
    ((monthlyPoints data analysis_col).length < 24 →
      create_trend_analysis hs sd data selected available_cols = none
      ∧ create_trend_analysis hs sd data selected available_cols
        = create_trend_analysis hs sd' data selected available_cols)
    ∧ (hs = true → 24 ≤ (monthlyPoints data analysis_col).length →
      create_trend_analysis hs sd data selected available_cols
        = sd (monthlyPoints data analysis_col)) := by
  constructor
  · intro hlt
    cases hs with
    | false => exact ⟨rfl, rfl⟩
    | true => constructor <;> simp [create_trend_analysis, hcol, hlt]
  · intro hhs hge
    subst hhs
    simp [create_trend_analysis, hcol, Nat.not_lt.mpr hge]

theorem seasonal_decompose_gate_witness :
    ([(Key.suzano, "p")].lookup Key.suzano = some "p")
    ∧ (((monthlyPoints dfW "p").length < 24 →
        create_trend_analysis true (fun _ => some 0) dfW Key.suzano [(Key.suzano, "p")] = none
        ∧ create_trend_analysis true (fun _ => some 0) dfW Key.suzano [(Key.suzano, "p")]
          = create_trend_analysis true (fun _ => none) dfW Key.suzano [(Key.suzano, "p")])
      ∧ (true = true → 24 ≤ (monthlyPoints dfW "p").length →
        create_trend_analysis true (fun _ => some 0) dfW Key.suzano [(Key.suzano, "p")]
          = (fun _ => some (0 : Nat)) (monthlyPoints dfW "p"))) :=
  ⟨by decide,
    seasonal_decompose_gate true (fun _ => some 0) (fun _ => none) dfW Key.suzano
      [(Key.suzano, "p")] "p" (by decide)⟩

/-- C9: a failed upload attempt (any exception inside the `try` block:
unparseable file, empty column index, unparseable dates) leaves the session
state exactly as it was: no partial state is committed. -/
theorem upload_failure_preserves_state {F C : Type}
    (read_excel : F → Except String (List String × List (C × List (String × Option ℚ))))
    (to_datetime : C → Except String Nat)
    (s : SessionState) (file : F) (e : String)
    (herr : load_attempt read_excel to_datetime file = Except.error e) :
    process_upload read_excel to_datetime s file = s := by
  unfold process_upload
  rw [herr]

/-- A concrete populated session used by the upload-atomicity witness. -/
def sessionW : SessionState :=
  { df_data := some dfW, available_cols := [(Key.suzano, "p")], date_col := some "Date" }

theorem upload_failure_preserves_state_witness :
    load_attempt (fun _ : Unit => Except.error "bad file")
        (fun _ : Unit => Except.ok (0 : Nat)) ()
      = Except.error "bad file"
    ∧ process_upload (fun _ : Unit => Except.error "bad file")
        (fun _ : Unit => Except.ok (0 : Nat)) sessionW ()
      = sessionW :=
  ⟨rfl,
    upload_failure_preserves_state (fun _ : Unit => Except.error "bad file")
      (fun _ : Unit => Except.ok (0 : Nat)) sessionW () "bad file" rfl⟩

end PulpDashboard
